import Mathlib

/-!
Verification of the core of `mon-erp-pro` (`src/main.py`): the invoice
ledger (per-line discount/VAT aggregation) and the hand-rolled session
authenticator (salted-hash passwords, HMAC-signed expiring tokens,
cookie-based identity resolution, credential bootstrap), together with the
invoice-creation price snapshot.

Modelling conventions:
* Python strings are lists of characters (`Str`).
* SHA-256 (`hashlib.sha256(...).hexdigest()`) and HMAC-SHA256
  (`hmac.new(key, payload, sha256).hexdigest()`) are abstract function
  parameters `sha : Str → Str` and `mac : Str → Str → Str`; claims that
  need collision-freeness take it as an explicit idealization hypothesis.
* Clock readings (`time.time()`, `datetime.utcnow()`) are integer Unix
  seconds passed explicitly.
* Python `float` amounts are modelled as rationals `ℚ`.
* A caught Python exception that the code turns into `None` is `none`;
  an uncaught exception (HTTP 500) or an `HTTPException` is `none` in an
  `Option` result, as documented at each definition.
-/

/-- Python strings, modelled as lists of characters. -/
abbrev Str := List Char

/-- Fuel-driven decimal digit accumulation: `natReprAux fuel n` is the decimal
digit string of `n`, most significant first, provided `n < fuel`. -/
def natReprAux : Nat → Nat → Str
  | 0, _ => []
  | fuel + 1, n =>
    if n < 10 then [Nat.digitChar n]
    else natReprAux fuel (n / 10) ++ [Nat.digitChar (n % 10)]

/-- Decimal representation of a natural number, as produced by Python
`str()` on a non-negative `int` (no sign, no leading zeros except `"0"`). -/
def natRepr (n : Nat) : Str := natReprAux (n + 1) n

/-- Decimal representation of an integer, as produced by Python `str()`:
a leading minus sign for negative values, digits otherwise. -/
def intRepr (i : Int) : Str :=
  if i < 0 then '-' :: natRepr i.natAbs else natRepr i.natAbs

/-- Value of a decimal digit character, `none` on any other character. -/
def digitVal? (ch : Char) : Option Nat :=
  if '0' ≤ ch ∧ ch ≤ '9' then some (ch.toNat - 48) else none

/-- Accumulating decimal parser over a digit string. -/
def parseNatAux (acc : Nat) : Str → Option Nat
  | [] => some acc
  | ch :: rest =>
    match digitVal? ch with
    | none => none
    | some d => parseNatAux (acc * 10 + d) rest

/-- Parse a non-empty all-digit string as a natural number. -/
def parseNat (s : Str) : Option Nat :=
  if s = [] then none else parseNatAux 0 s

/-- Parse of a decimal integer string, modelling Python `int(...)` on the
canonical output of `str(int)` (an optional minus sign followed by digits);
CPython's extra leniency (surrounding whitespace, a plus sign, underscore
separators) is not modelled, and any string outside this shape yields
`none`, standing for the raised `ValueError`. -/
def parseInt (s : Str) : Option Int :=
  match s with
  | [] => none
  | c :: rest =>
    if c = '-' then
      match parseNat rest with
      | none => none
      | some n => some (-(n : Int))
    else
      match parseNat (c :: rest) with
      | none => none
      | some n => some ((n : Int))

/-- Splitting a character list at every occurrence of a separator, matching
Python `str.split(sep)`: the empty string splits to `[""]`, and separators
at the ends produce empty fields. -/
def splitOnChar (c : Char) : Str → List Str
  | [] => [[]]
  | x :: xs =>
    if x = c then [] :: splitOnChar c xs
    else
      match splitOnChar c xs with
      | [] => [[x]]
      | r :: rs => (x :: r) :: rs

theorem natReprAux_irrel : ∀ f1 f2 n, n < f1 → n < f2 →
    natReprAux f1 n = natReprAux f2 n := by
  intro f1
  induction f1 with
  | zero => intro f2 n h1 _; omega
  | succ g1 ih =>
    intro f2 n h1 h2
    cases f2 with
    | zero => omega
    | succ g2 =>
      simp only [natReprAux]
      by_cases h : n < 10
      · simp [h]
      · simp only [h, if_false]
        have hd : n / 10 < n := Nat.div_lt_self (by omega) (by omega)
        rw [ih g2 (n / 10) (by omega) (by omega)]

theorem natRepr_of_lt (n : Nat) (h : n < 10) : natRepr n = [Nat.digitChar n] := by
  simp [natRepr, natReprAux, h]

theorem natReprAux_succ (fuel n : Nat) :
    natReprAux (fuel + 1) n =
      if n < 10 then [Nat.digitChar n]
      else natReprAux fuel (n / 10) ++ [Nat.digitChar (n % 10)] := rfl

theorem natRepr_of_ge (n : Nat) (h : 10 ≤ n) :
    natRepr n = natRepr (n / 10) ++ [Nat.digitChar (n % 10)] := by
  have hd : n / 10 < n := Nat.div_lt_self (by omega) (by omega)
  calc natRepr n = natReprAux n (n / 10) ++ [Nat.digitChar (n % 10)] := by
        rw [show natRepr n = natReprAux (n + 1) n from rfl, natReprAux_succ,
          if_neg (Nat.not_lt.mpr h)]
    _ = natRepr (n / 10) ++ [Nat.digitChar (n % 10)] := by
        rw [natReprAux_irrel n (n / 10 + 1) (n / 10) (by omega) (by omega)]
        rfl

theorem natRepr_ne_nil (n : Nat) : natRepr n ≠ [] := by
  by_cases h : n < 10
  · rw [natRepr_of_lt n h]; simp
  · rw [natRepr_of_ge n (by omega)]; simp

theorem digitChar_of_fin : ∀ m : Fin 10,
    Nat.digitChar m.val ≠ ':' ∧ Nat.digitChar m.val ≠ '-' ∧
    digitVal? (Nat.digitChar m.val) = some m.val := by decide

theorem natRepr_mem_digit (n : Nat) :
    ∀ ch ∈ natRepr n, ∃ m : Fin 10, ch = Nat.digitChar m.val := by
  induction n using Nat.strong_induction_on with
  | _ n ih =>
    intro ch hch
    by_cases h : n < 10
    · rw [natRepr_of_lt n h] at hch
      simp at hch
      exact ⟨⟨n, h⟩, hch⟩
    · rw [natRepr_of_ge n (by omega)] at hch
      rcases List.mem_append.mp hch with hl | hr
      · exact ih (n / 10) (Nat.div_lt_self (by omega) (by omega)) ch hl
      · simp at hr
        exact ⟨⟨n % 10, Nat.mod_lt n (by omega)⟩, hr⟩

theorem colon_not_mem_natRepr (n : Nat) : ':' ∉ natRepr n := by
  intro hmem
  obtain ⟨m, hm⟩ := natRepr_mem_digit n ':' hmem
  exact (digitChar_of_fin m).1 hm.symm

theorem colon_not_mem_intRepr (i : Int) : ':' ∉ intRepr i := by
  unfold intRepr
  by_cases h : i < 0
  · simp only [h, if_true]
    intro hmem
    rcases List.mem_cons.mp hmem with he | ht
    · exact absurd he (by decide)
    · exact colon_not_mem_natRepr _ ht
  · simp only [h, if_false]
    exact colon_not_mem_natRepr _

theorem parseNatAux_append (acc : Nat) (xs ys : Str) :
    parseNatAux acc (xs ++ ys) =
      (parseNatAux acc xs).bind (fun a => parseNatAux a ys) := by
  induction xs generalizing acc with
  | nil => simp [parseNatAux]
  | cons c rest ih =>
    simp only [List.cons_append, parseNatAux]
    cases digitVal? c with
    | none => simp
    | some d => simp [ih]

theorem parseNatAux_natRepr (n : Nat) : ∀ acc : Nat,
    parseNatAux acc (natRepr n) = some (acc * 10 ^ (natRepr n).length + n) := by
  induction n using Nat.strong_induction_on with
  | _ n ih =>
    intro acc
    by_cases h : n < 10
    · rw [natRepr_of_lt n h]
      have hdv := (digitChar_of_fin ⟨n, h⟩).2.2
      simp [parseNatAux, hdv]
    · rw [natRepr_of_ge n (by omega)]
      rw [parseNatAux_append]
      have hd : n / 10 < n := Nat.div_lt_self (by omega) (by omega)
      rw [ih (n / 10) hd acc]
      have hdv := (digitChar_of_fin ⟨n % 10, Nat.mod_lt n (by omega)⟩).2.2
      simp only [Option.some_bind, Option.bind_some, parseNatAux, hdv]
      have hlen : (natRepr (n / 10) ++ [Nat.digitChar (n % 10)]).length =
          (natRepr (n / 10)).length + 1 := by simp
      rw [hlen, pow_succ]
      congr 1
      have hmod : 10 * (n / 10) + n % 10 = n := Nat.div_add_mod n 10
      calc (acc * 10 ^ (natRepr (n / 10)).length + n / 10) * 10 + n % 10
          = acc * (10 ^ (natRepr (n / 10)).length * 10) +
            (10 * (n / 10) + n % 10) := by ring
        _ = acc * (10 ^ (natRepr (n / 10)).length * 10) + n := by rw [hmod]

theorem parseNat_natRepr (n : Nat) : parseNat (natRepr n) = some n := by
  unfold parseNat
  rw [if_neg (natRepr_ne_nil n), parseNatAux_natRepr n 0]
  norm_num

theorem parseInt_intRepr (i : Int) : parseInt (intRepr i) = some i := by
  by_cases h : i < 0
  · rw [show intRepr i = '-' :: natRepr i.natAbs from by simp [intRepr, h]]
    have h1 : parseInt ('-' :: natRepr i.natAbs) =
        match parseNat (natRepr i.natAbs) with
        | none => none
        | some n => some (-(n : Int)) := rfl
    rw [h1, parseNat_natRepr]
    show some (-(i.natAbs : Int)) = some i
    congr 1
    omega
  · rw [show intRepr i = natRepr i.natAbs from by simp [intRepr, h]]
    obtain ⟨c, cs, hcs⟩ := List.exists_cons_of_ne_nil (natRepr_ne_nil i.natAbs)
    have hc : c ∈ natRepr i.natAbs := by rw [hcs]; exact List.mem_cons_self c cs
    obtain ⟨m, hm⟩ := natRepr_mem_digit i.natAbs c hc
    have hne : c ≠ '-' := by rw [hm]; exact (digitChar_of_fin m).2.1
    rw [hcs]
    have hp : parseInt (c :: cs) =
        match parseNat (c :: cs) with
        | none => none
        | some n => some ((n : Int)) := by
      simp only [parseInt, hne, if_false]
    rw [hp, ← hcs, parseNat_natRepr]
    show some ((i.natAbs : Int)) = some i
    congr 1
    omega

theorem splitOnChar_ne_nil (c : Char) (s : Str) : splitOnChar c s ≠ [] := by
  induction s with
  | nil => simp [splitOnChar]
  | cons x xs ih =>
    simp only [splitOnChar]
    by_cases h : x = c
    · simp [h]
    · simp only [h, if_false]
      cases hs : splitOnChar c xs with
      | nil => simp
      | cons r rs => simp

theorem splitOnChar_not_mem (c : Char) (xs : Str) (h : c ∉ xs) :
    splitOnChar c xs = [xs] := by
  induction xs with
  | nil => simp [splitOnChar]
  | cons x rest ih =>
    have hx : x ≠ c := fun he => h (he ▸ List.mem_cons_self x rest)
    have hrest : c ∉ rest := fun hm => h (List.mem_cons_of_mem x hm)
    simp only [splitOnChar, hx, if_false, ih hrest]

theorem splitOnChar_append (c : Char) (xs ys : Str) (h : c ∉ xs) :
    splitOnChar c (xs ++ c :: ys) = xs :: splitOnChar c ys := by
  induction xs with
  | nil => simp [splitOnChar]
  | cons x rest ih =>
    have hx : x ≠ c := fun he => h (he ▸ List.mem_cons_self x rest)
    have hrest : c ∉ rest := fun hm => h (List.mem_cons_of_mem x hm)
    simp only [List.cons_append, splitOnChar, hx, if_false, List.append_eq, ih hrest]

/-- Row of the `company` table, with the column defaults of `src/main.py`.
`payment_term` is a nullable integer column. -/
structure Company where
  name : Str
  address : Str
  siret : Str
  vat_number : Str
  iban : Str
  bic : Str
  logo_url : Str
  legal_terms : Str
  theme_color : Str
  payment_term : Option Int
deriving DecidableEq

/-- Company row produced by the bare constructor `Company()`: every column
takes its declared default. -/
def defaultCompany : Company where
  name := ("Mon Entreprise").data
  address := ("1 Rue de la République, 69001 Lyon").data
  siret := ("000 000 000 00000").data
  vat_number := ("FR 00 000000000").data
  iban := ("FR76 0000 0000 0000 0000 0000 000").data
  bic := ("BANKFRPP").data
  logo_url := ("https://img.icons8.com/ios/100/000000/company.png").data
  legal_terms := ("Indemnité forfaitaire pour frais de recouvrement : 40€.").data
  theme_color := ("#2c3e50").data
  payment_term := some 30

/-- Row of the `customers` table. -/
structure Customer where
  id : Int
  name : Str
  email : Str
  address : Str
  siret : Str
deriving DecidableEq

/-- Row of the `products` table; `vat_rate` is a nullable float column with
default 20.0. -/
structure Product where
  id : Int
  name : Str
  price : ℚ
  vat_rate : Option ℚ
deriving DecidableEq

/-- Row of the `invoices` table; datetimes are integer Unix seconds. -/
structure Invoice where
  id : Int
  date : Int
  due_date : Option Int
  customer_id : Int
deriving DecidableEq

/-- Row of the `invoice_lines` table; `discount` and `vat_rate` are nullable
float columns. -/
structure InvoiceLine where
  id : Int
  invoice_id : Int
  product_id : Int
  quantity : Int
  unit_price : ℚ
  discount : Option ℚ
  vat_rate : Option ℚ
deriving DecidableEq

/-- Row of the `users` table. -/
structure User where
  id : Int
  username : Str
  password_hash : Str
  created_at : Int
deriving DecidableEq

/-- The relational store reached through the SQLAlchemy session: one list
per table, plus the autoincrement counters the engine keeps per table
(`customers` need no counter for the claims below but the table is kept for
completeness). -/
structure DB where
  companies : List Company
  users : List User
  customers : List Customer
  products : List Product
  invoices : List Invoice
  invoice_lines : List InvoiceLine
  next_user_id : Int
  next_invoice_id : Int
  next_line_id : Int
deriving DecidableEq

/-- Pydantic schema `ProductCreate` (`vat_rate` has default 20.0 and is
always a float after validation). -/
structure ProductCreate where
  name : Str
  price : ℚ
  vat_rate : ℚ
deriving DecidableEq

/-- Pydantic schema `InvoiceLineCreate`. `vat_rate` is kept optional here
because `create_invoice`/`update_invoice` guard it with `is not None`;
pydantic fills the default 20.0 when the field is omitted, which is the
`some` case. -/
structure InvoiceLineCreate where
  product_id : Int
  quantity : Int
  discount : ℚ
  vat_rate : Option ℚ
deriving DecidableEq

/-- Pydantic schema `InvoiceCreate`. -/
structure InvoiceCreate where
  customer_id : Int
  due_date : Option Int
  lines : List InvoiceLineCreate
deriving DecidableEq

/-- Python `x or d` on a nullable integer column value: `None` and `0` are
falsy and give `d`, anything else gives the value itself. -/
def pyOrInt (x : Option Int) (d : Int) : Int :=
  match x with
  | none => d
  | some v => if v = 0 then d else v

/-- Property `Invoice.total_ht`:
`sum(line.quantity * line.unit_price * (1 - (line.discount or 0)/100) for line in self.lines)`.
On a nullable float, `line.discount or 0` equals `line.discount.getD 0`:
`None` gives 0, and the only other falsy float is 0.0, for which the
`or`-default 0 coincides with the value. -/
def total_ht (lines : List InvoiceLine) : ℚ :=
  (lines.map (fun line =>
    (line.quantity : ℚ) * line.unit_price * (1 - (line.discount.getD 0) / 100))).sum

/-- Property `Invoice.total_tax`:
`sum(line.quantity * line.unit_price * (1 - (line.discount or 0)/100) * ((line.vat_rate or 0)/100) for line in self.lines)`. -/
def total_tax (lines : List InvoiceLine) : ℚ :=
  (lines.map (fun line =>
    (line.quantity : ℚ) * line.unit_price * (1 - (line.discount.getD 0) / 100) *
      ((line.vat_rate.getD 0) / 100))).sum

/-- Property `Invoice.total_ttc`: `self.total_ht + self.total_tax`,
recomputed from the same line collection at every read. -/
def total_ttc (lines : List InvoiceLine) : ℚ :=
  total_ht lines + total_tax lines

/-- Constant `SESSION_EXPIRE_SECONDS = 60 * 60 * 24 * 7` (7 days). -/
def SESSION_EXPIRE_SECONDS : Int := 60 * 60 * 24 * 7

/-- Function `hash_password`: SHA-256 hex digest of the plaintext
concatenated with the fixed application salt `":monerp_salt"`; the digest
pipeline (`encode` + `sha256` + `hexdigest`) is the abstract parameter
`sha`. -/
def hash_password (sha : Str → Str) (password : Str) : Str :=
  sha (password ++ (":monerp_salt").data)

/-- Function `verify_password`: recompute the digest and compare with
`hmac.compare_digest` (a constant-time equality test; only its boolean
result is observable here). -/
def verify_password (sha : Str → Str) (password : Str) (hashed : Str) : Bool :=
  hash_password sha password == hashed

/-- Function `create_session_token`: payload `f"{user_id}:{expires_at}"`
with `expires_at = int(time.time()) + SESSION_EXPIRE_SECONDS`, followed by
the HMAC-SHA256 hex signature of the payload under the server secret;
`mac` is the abstract HMAC parameter. -/
def create_session_token (mac : Str → Str → Str) (key : Str) (now : Int)
    (user_id : Int) : Str :=
  let expires_at := now + SESSION_EXPIRE_SECONDS
  let payload := intRepr user_id ++ ':' :: intRepr expires_at
  payload ++ ':' :: mac key payload

/-- Function `parse_session_token`: split on `":"` into exactly three
fields (the `try`/`except` turns a failed unpacking, like every other
raised error in the body, into `None`), verify the recomputed signature,
reject once the embedded expiry is in the past, and return the embedded
user id; every failure path yields the same `none`. -/
def parse_session_token (mac : Str → Str → Str) (key : Str) (now : Int)
    (token : Str) : Option Int :=
  match splitOnChar ':' token with
  | [user_id_str, expires_str, signature] =>
    let payload := user_id_str ++ ':' :: expires_str
    let expected_sig := mac key payload
    if signature = expected_sig then
      match parseInt expires_str with
      | none => none
      | some expires_at =>
        if expires_at < now then none else parseInt user_id_str
    else none
  | _ => none

/-- Function `get_current_user`: read the `session_token` cookie (`cookie`
is `request.cookies.get("session_token")`), return `None` when it is
missing or empty (`if not token`), delegate to `parse_session_token`,
treat a falsy parsed id (`None` or `0`, per `if not user_id`) as
anonymous, and otherwise resolve the id against the `users` table with
`.filter(User.id == user_id).first()`. -/
def get_current_user (mac : Str → Str → Str) (key : Str) (now : Int)
    (cookie : Option Str) (users : List User) : Option User :=
  match cookie with
  | none => none
  | some token =>
    if token = [] then none
    else
      match parse_session_token mac key now token with
      | none => none
      | some user_id =>
        if user_id = 0 then none
        else users.find? (fun u => u.id == user_id)

/-- Dependency `get_db`: the state of the store at the moment the session
is yielded to the endpoint — a default `Company()` row is inserted and
committed when the `company` table is empty, and a default
`User(username="admin", password_hash=hash_password("admin123"))` is
inserted and committed when the `users` table is empty. -/
def get_db (sha : Str → Str) (now : Int) (db : DB) : DB :=
  let db1 := if db.companies.length = 0
    then { db with companies := [defaultCompany] } else db
  if db1.users.length = 0 then
    { db1 with
      users := [{ id := db1.next_user_id, username := ("admin").data,
                  password_hash := hash_password sha ("admin123").data,
                  created_at := now }],
      next_user_id := db1.next_user_id + 1 }
  else db1

/-- Dependency `require_user`: `get_current_user` on the yielded session;
`none` stands for the raised `HTTPException(status_code=401)`. -/
def require_user (mac : Str → Str → Str) (key : Str) (now : Int)
    (cookie : Option Str) (db : DB) : Option User :=
  get_current_user mac key now cookie db.users

/-- Outcome of one protected endpoint call: the handler's return value, or
an `HTTPException` short-circuit with its status code. -/
inductive EndpointResult (α : Type) where
  | ok (value : α)
  | httpError (code : Nat)
deriving DecidableEq

/-- FastAPI execution of a protected endpoint: the framework resolves
`Depends(get_db)` first, then `Depends(require_user)` (which re-uses the
same yielded session), and only runs the endpoint body (`handler`) when
`require_user` returns a user; a 401 from `require_user` aborts the
request with the store left as `get_db` produced it. -/
def run_protected {α : Type} (sha : Str → Str) (mac : Str → Str → Str)
    (key : Str) (now : Int) (cookie : Option Str)
    (handler : DB → User → DB × α) (db : DB) : DB × EndpointResult α :=
  let db1 := get_db sha now db
  match require_user mac key now cookie db1 with
  | none => (db1, EndpointResult.httpError 401)
  | some u =>
    let r := handler db1 u
    (r.1, EndpointResult.ok r.2)

/-- Update applied to the first row matching a predicate, leaving every
other row unchanged — the effect of mutating the result of
`.filter(...).first()` and committing. -/
def update_first {α : Type} (P : α → Bool) (f : α → α) : List α → List α
  | [] => []
  | x :: xs => if P x then f x :: xs else x :: update_first P f xs

/-- Endpoint `update_product`: 404 (`none`) when no product has the given
id; otherwise overwrite `name`, `price` and `vat_rate` of that row.
Invoices and invoice lines are not touched. -/
def update_product (db : DB) (product_id : Int) (product : ProductCreate) :
    Option DB :=
  match db.products.find? (fun q => q.id == product_id) with
  | none => none
  | some _ =>
    some { db with
      products := update_first (fun q => q.id == product_id)
        (fun q =>
          { q with
            name := product.name
            price := product.price
            vat_rate := some product.vat_rate })
        db.products }

/-- Loop body of `create_invoice`: for each requested line, look the
product up by id (lines whose product is missing are silently skipped) and
append an `InvoiceLine` whose `unit_price` is the product's current
`price`; the products table itself is never modified by the loop, so the
`products` snapshot passed in stays equal to the live table. -/
def add_invoice_lines (products : List Product) (inv_id : Int) :
    List InvoiceLineCreate → DB → DB
  | [], db => db
  | line :: rest, db =>
    match products.find? (fun p => p.id == line.product_id) with
    | none => add_invoice_lines products inv_id rest db
    | some product =>
      let vat : Option ℚ :=
        match line.vat_rate with
        | some v => some v
        | none => product.vat_rate
      add_invoice_lines products inv_id rest
        { db with
          invoice_lines := db.invoice_lines ++
            [{ id := db.next_line_id, invoice_id := inv_id,
               product_id := product.id, quantity := line.quantity,
               unit_price := product.price, discount := some line.discount,
               vat_rate := vat }],
          next_line_id := db.next_line_id + 1 }

/-- Endpoint `create_invoice`: insert the invoice row (due date taken from
the request when truthy, else `utcnow() + timedelta(days=company.payment_term or 30)`
with the first company row — `none` models the uncaught `AttributeError`
when no company row exists, which `get_db` normally prevents), then add
one line per requested line through `add_invoice_lines`. -/
def create_invoice (now : Int) (db : DB) (invoice_data : InvoiceCreate) :
    Option (DB × Invoice) :=
  let computed_due : Option Int :=
    match invoice_data.due_date with
    | some d => some d
    | none =>
      match db.companies with
      | [] => none
      | company :: _ => some (now + pyOrInt company.payment_term 30 * 86400)
  match computed_due with
  | none => none
  | some due =>
    let new_invoice : Invoice :=
      { id := db.next_invoice_id, date := now, due_date := some due,
        customer_id := invoice_data.customer_id }
    let db1 : DB :=
      { db with
        invoices := db.invoices ++ [new_invoice]
        next_invoice_id := db.next_invoice_id + 1 }
    some (add_invoice_lines db1.products new_invoice.id invoice_data.lines db1,
      new_invoice)

theorem splitOnChar_token (u e s : Str) (hu : ':' ∉ u) (he : ':' ∉ e)
    (hs : ':' ∉ s) :
    splitOnChar ':' ((u ++ ':' :: e) ++ ':' :: s) = [u, e, s] := by
  rw [List.append_assoc, List.cons_append]
  rw [splitOnChar_append ':' u _ hu, splitOnChar_append ':' e s he,
    splitOnChar_not_mem ':' s hs]

theorem parse_create (mac : Str → Str → Str) (key : Str)
    (tIssue tParse uid : Int)
    (hsig : ':' ∉ mac key
      (intRepr uid ++ ':' :: intRepr (tIssue + SESSION_EXPIRE_SECONDS))) :
    parse_session_token mac key tParse
        (create_session_token mac key tIssue uid) =
      if tIssue + SESSION_EXPIRE_SECONDS < tParse then none else some uid := by
  have hu := colon_not_mem_intRepr uid
  have he := colon_not_mem_intRepr (tIssue + SESSION_EXPIRE_SECONDS)
  unfold create_session_token parse_session_token
  simp only []
  rw [splitOnChar_token _ _ _ hu he hsig]
  simp [parseInt_intRepr]

theorem parse_create_other_key (mac : Str → Str → Str) (key key2 : Str)
    (tIssue tParse uid : Int)
    (hsig : ':' ∉ mac key
      (intRepr uid ++ ':' :: intRepr (tIssue + SESSION_EXPIRE_SECONDS)))
    (hdiff : mac key
        (intRepr uid ++ ':' :: intRepr (tIssue + SESSION_EXPIRE_SECONDS)) ≠
      mac key2
        (intRepr uid ++ ':' :: intRepr (tIssue + SESSION_EXPIRE_SECONDS))) :
    parse_session_token mac key2 tParse
      (create_session_token mac key tIssue uid) = none := by
  have hu := colon_not_mem_intRepr uid
  have he := colon_not_mem_intRepr (tIssue + SESSION_EXPIRE_SECONDS)
  unfold create_session_token parse_session_token
  simp only []
  rw [splitOnChar_token _ _ _ hu he hsig]
  simp [hdiff]

/-- C2: a token issued by `create_session_token(uid)` under key `K` parses
back to `uid` under `K` at every time at or before the embedded
`expires_at = issue_time + 7 days`, is rejected once the parse-time clock
is past `expires_at`, and is always rejected under a different secret key.
The two hypotheses are the idealization of HMAC-SHA256: its hex digest
never contains the `':'` delimiter, and different keys sign the same
payload differently. -/
theorem token_roundtrip_and_key_separation (mac : Str → Str → Str)
    (key key2 : Str) (uid tIssue tParse : Int)
    (hsig : ':' ∉ mac key
      (intRepr uid ++ ':' :: intRepr (tIssue + SESSION_EXPIRE_SECONDS)))
    (hdiff : mac key
        (intRepr uid ++ ':' :: intRepr (tIssue + SESSION_EXPIRE_SECONDS)) ≠
      mac key2
        (intRepr uid ++ ':' :: intRepr (tIssue + SESSION_EXPIRE_SECONDS))) :
    (tParse ≤ tIssue + SESSION_EXPIRE_SECONDS →
      parse_session_token mac key tParse
        (create_session_token mac key tIssue uid) = some uid) ∧
    (tIssue + SESSION_EXPIRE_SECONDS < tParse →
      parse_session_token mac key tParse
        (create_session_token mac key tIssue uid) = none) ∧
    parse_session_token mac key2 tParse
      (create_session_token mac key tIssue uid) = none := by
  refine ⟨?_, ?_, ?_⟩
  · intro hle
    rw [parse_create mac key tIssue tParse uid hsig, if_neg (by omega)]
  · intro hlt
    rw [parse_create mac key tIssue tParse uid hsig, if_pos hlt]
  · exact parse_create_other_key mac key key2 tIssue tParse uid hsig hdiff

/-- Witness for C2 at a concrete HMAC model, key pair, user id and clock. -/
theorem token_roundtrip_and_key_separation_check :
    parse_session_token (fun kk _ => kk) ['k'] 0
      (create_session_token (fun kk _ => kk) ['k'] (-604800) 7) = some 7 ∧
    parse_session_token (fun kk _ => kk) ['k'] 1
      (create_session_token (fun kk _ => kk) ['k'] (-604800) 7) = none ∧
    parse_session_token (fun kk _ => kk) ['j'] 0
      (create_session_token (fun kk _ => kk) ['k'] (-604800) 7) = none := by
  have h0 := token_roundtrip_and_key_separation (fun kk _ => kk) ['k'] ['j']
    7 (-604800) 0 (by decide) (by decide)
  have h1 := token_roundtrip_and_key_separation (fun kk _ => kk) ['k'] ['j']
    7 (-604800) 1 (by decide) (by decide)
  exact ⟨h0.1 (by decide), h1.2.1 (by decide), h0.2.2⟩

/-- C3: `parse_session_token` is total (its Lean embedding returns an
`Option`, the `try`/`except None` of the source) and returns the single
`Rejected` value `none` whenever the token does not split into exactly
three `':'`-fields, or the signature field differs from the recomputed
HMAC of the payload, or the embedded expiry is in the past, or a numeric
field does not parse as an integer; all four failure causes yield the
same, information-free `none`. -/
theorem parse_rejects_uniformly (mac : Str → Str → Str) (key : Str)
    (now : Int) (token : Str) :
    ((splitOnChar ':' token).length ≠ 3 →
      parse_session_token mac key now token = none) ∧
    (∀ u e s, splitOnChar ':' token = [u, e, s] →
      s ≠ mac key (u ++ ':' :: e) →
      parse_session_token mac key now token = none) ∧
    (∀ u e s ex, splitOnChar ':' token = [u, e, s] → parseInt e = some ex →
      ex < now → parse_session_token mac key now token = none) ∧
    (∀ u e s, splitOnChar ':' token = [u, e, s] →
      parseInt u = none ∨ parseInt e = none →
      parse_session_token mac key now token = none) := by
  refine ⟨?_, ?_, ?_, ?_⟩
  · intro hlen
    unfold parse_session_token
    rcases hl : splitOnChar ':' token with _ | ⟨a, _ | ⟨b, _ | ⟨c, _ | ⟨d, rest⟩⟩⟩⟩
    · rfl
    · rfl
    · rfl
    · rw [hl] at hlen; simp at hlen
    · rfl
  · intro u e s hl hne
    unfold parse_session_token
    rw [hl]
    simp [hne]
  · intro u e s ex hl hse hlt
    unfold parse_session_token
    rw [hl]
    by_cases hs : s = mac key (u ++ ':' :: e)
    · simp [hs, hse, hlt]
    · simp [hs]
  · intro u e s hl hpe
    unfold parse_session_token
    rw [hl]
    by_cases hs : s = mac key (u ++ ':' :: e)
    · rcases hpe with hu | he2
      · cases hpeE : parseInt e with
        | none => simp [hs, hpeE]
        | some ex =>
          by_cases hlt : ex < now
          · simp [hs, hpeE, hlt]
          · simp [hs, hpeE, hlt, hu]
      · simp [hs, he2]
    · simp [hs]

/-- Witness for C3: one concrete rejected token per failure cause. -/
theorem parse_rejects_uniformly_check :
    parse_session_token (fun _ _ => ['m']) [] 0 ['x'] = none ∧
    parse_session_token (fun _ _ => ['m']) [] 0
      ['a', ':', 'b', ':', 'c'] = none ∧
    parse_session_token (fun _ _ => ['m']) [] 5
      ['1', ':', '0', ':', 'm'] = none ∧
    parse_session_token (fun _ _ => ['m']) [] 0
      ['x', ':', '0', ':', 'm'] = none := by
  refine ⟨?_, ?_, ?_, ?_⟩
  · exact (parse_rejects_uniformly (fun _ _ => ['m']) [] 0 ['x']).1 (by decide)
  · exact (parse_rejects_uniformly (fun _ _ => ['m']) [] 0
      ['a', ':', 'b', ':', 'c']).2.1 ['a'] ['b'] ['c'] (by decide) (by decide)
  · exact (parse_rejects_uniformly (fun _ _ => ['m']) [] 5
      ['1', ':', '0', ':', 'm']).2.2.1 ['1'] ['0'] ['m'] 0 (by decide)
      (by decide) (by decide)
  · exact (parse_rejects_uniformly (fun _ _ => ['m']) [] 0
      ['x', ':', '0', ':', 'm']).2.2.2 ['x'] ['0'] ['m'] (by decide)
      (Or.inl (by decide))

/-- C10: a correctly signed, non-expired token whose embedded user id is
`0` makes `get_current_user` return `none` for every state of the `users`
table — including one that contains a user with id 0 — because the parsed
id `0` is falsy in `if not user_id`, exactly like a `Rejected` parse; the
universal quantification over `users` expresses that the credential-store
lookup is never consulted. -/
theorem token_uid_zero_anonymous (mac : Str → Str → Str) (key : Str)
    (tIssue tParse : Int)
    (hsig : ':' ∉ mac key
      (intRepr 0 ++ ':' :: intRepr (tIssue + SESSION_EXPIRE_SECONDS)))
    (hvalid : tParse ≤ tIssue + SESSION_EXPIRE_SECONDS) :
    parse_session_token mac key tParse
      (create_session_token mac key tIssue 0) = some 0 ∧
    ∀ users : List User,
      get_current_user mac key tParse
        (some (create_session_token mac key tIssue 0)) users = none := by
  have hp : parse_session_token mac key tParse
      (create_session_token mac key tIssue 0) = some 0 := by
    rw [parse_create mac key tIssue tParse 0 hsig, if_neg (by omega)]
  refine ⟨hp, ?_⟩
  intro users
  have hne : create_session_token mac key tIssue 0 ≠ [] := by
    unfold create_session_token
    simp
  simp [get_current_user, hne, hp]

/-- Witness for C10: even with a user of id 0 present, the valid uid-0
token authenticates nobody. -/
theorem token_uid_zero_anonymous_check :
    parse_session_token (fun kk _ => kk) ['k'] 0
      (create_session_token (fun kk _ => kk) ['k'] (-604800) 0) = some 0 ∧
    get_current_user (fun kk _ => kk) ['k'] 0
      (some (create_session_token (fun kk _ => kk) ['k'] (-604800) 0))
      [{ id := 0, username := ['a'], password_hash := ['h'], created_at := 0 }] =
      none := by
  have h := token_uid_zero_anonymous (fun kk _ => kk) ['k'] (-604800) 0
    (by decide) (by decide)
  refine ⟨h.1, ?_⟩
  exact h.2 [{ id := 0, username := ['a'], password_hash := ['h'], created_at := 0 }]

/-- C1: the computed totals satisfy
`total_ht = Σ quantity * unit_price * (1 - discount/100)` and
`total_tax = Σ quantity * unit_price * (1 - discount/100) * (vat_rate/100)`
with an absent (`None`) discount or VAT rate contributing as 0; in
particular a single line with both fields absent contributes
`quantity * unit_price` to `total_ht` and nothing to `total_tax`. -/
theorem invoice_totals_formula :
    (∀ lines : List InvoiceLine,
      total_ht lines = (lines.map (fun l =>
        (l.quantity : ℚ) * l.unit_price * (1 - (l.discount.getD 0) / 100))).sum ∧
      total_tax lines = (lines.map (fun l =>
        (l.quantity : ℚ) * l.unit_price * (1 - (l.discount.getD 0) / 100) *
          ((l.vat_rate.getD 0) / 100))).sum) ∧
    (∀ lid iid pid q : Int, ∀ up : ℚ,
      total_ht [⟨lid, iid, pid, q, up, none, none⟩] = (q : ℚ) * up ∧
      total_tax [⟨lid, iid, pid, q, up, none, none⟩] = 0) := by
  constructor
  · intro lines
    exact ⟨rfl, rfl⟩
  · intro lid iid pid q up
    constructor
    · simp [total_ht]
    · simp [total_tax]

/-- C7: `total_ttc` is exactly the sum of `total_ht` and `total_tax`,
recomputed from the same line list. -/
theorem total_ttc_eq (lines : List InvoiceLine) :
    total_ttc lines = total_ht lines + total_tax lines := rfl

/-- C4: `get_current_user` returns the identical `none` in all three
negative cases — missing cookie, token rejected by the parser, and parsed
id not resolving in the `users` table — and whenever it returns an
identity, the cookie was present, the token parsed, and the identity is
exactly the row the id lookup found. -/
theorem get_current_user_cases (mac : Str → Str → Str) (key : Str)
    (now : Int) (cookie : Option Str) (users : List User) :
    (cookie = none → get_current_user mac key now cookie users = none) ∧
    (∀ t, cookie = some t → parse_session_token mac key now t = none →
      get_current_user mac key now cookie users = none) ∧
    (∀ t uid, cookie = some t → parse_session_token mac key now t = some uid →
      users.find? (fun u => u.id == uid) = none →
      get_current_user mac key now cookie users = none) ∧
    (∀ u, get_current_user mac key now cookie users = some u →
      ∃ t uid, cookie = some t ∧ parse_session_token mac key now t = some uid ∧
        users.find? (fun u2 => u2.id == uid) = some u) := by
  refine ⟨?_, ?_, ?_, ?_⟩
  · intro h
    rw [h]
    rfl
  · intro t ht hp
    rw [ht]
    simp [get_current_user, hp]
  · intro t uid ht hp hf
    rw [ht]
    simp [get_current_user, hp, hf]
  · intro u hu
    unfold get_current_user at hu
    cases hc : cookie with
    | none => rw [hc] at hu; exact absurd hu (by simp)
    | some t =>
      rw [hc] at hu
      have hu2 : (if t = [] then none
          else match parse_session_token mac key now t with
            | none => none
            | some user_id =>
              if user_id = 0 then none
              else users.find? (fun u3 => u3.id == user_id)) = some u := hu
      by_cases ht : t = []
      · rw [if_pos ht] at hu2
        exact absurd hu2 (by simp)
      · rw [if_neg ht] at hu2
        cases hp : parse_session_token mac key now t with
        | none => rw [hp] at hu2; exact absurd hu2 (by simp)
        | some uid =>
          rw [hp] at hu2
          have hu3 : (if uid = 0 then none
              else users.find? (fun u3 => u3.id == uid)) = some u := hu2
          by_cases h0 : uid = 0
          · rw [if_pos h0] at hu3
            exact absurd hu3 (by simp)
          · rw [if_neg h0] at hu3
            exact ⟨t, uid, rfl, hp, hu3⟩

/-- Witness for C4 on the missing-cookie and rejected-token paths. -/
theorem get_current_user_cases_check :
    get_current_user (fun _ _ => ['m']) [] 0 none [] = none ∧
    get_current_user (fun _ _ => ['m']) [] 0 (some ['x']) [] = none := by
  constructor
  · exact (get_current_user_cases (fun _ _ => ['m']) [] 0 none []).1 rfl
  · exact (get_current_user_cases (fun _ _ => ['m']) [] 0 (some ['x']) []).2.1
      ['x'] rfl (by decide)

/-- C5: verifying a password against its own hash always succeeds, and —
under the idealization that the digest function is collision-free
(injective) — verifying any other password against that hash always
fails. -/
theorem password_verify_spec (sha : Str → Str)
    (hinj : Function.Injective sha) :
    (∀ p : Str, verify_password sha p (hash_password sha p) = true) ∧
    (∀ p p2 : Str, p ≠ p2 →
      verify_password sha p (hash_password sha p2) = false) := by
  constructor
  · intro p
    simp [verify_password]
  · intro p p2 hne
    simp only [verify_password, hash_password]
    rw [beq_eq_false_iff_ne]
    intro heq
    exact hne (List.append_cancel_right (hinj heq))

/-- Witness for C5 with the identity as a concrete injective digest. -/
theorem password_verify_spec_check :
    verify_password (fun s => s) ['a']
      (hash_password (fun s => s) ['a']) = true ∧
    verify_password (fun s => s) ['a']
      (hash_password (fun s => s) ['b']) = false := by
  have h := password_verify_spec (fun s => s) (fun a b hab => hab)
  exact ⟨h.1 ['a'], h.2 ['a'] ['b'] (by decide)⟩

/-- C8: when no credential row exists at the moment `get_db` runs, exactly
one default identity is created — username `"admin"` with the hash of the
fixed initial password `"admin123"` — and when at least one credential
exists, the `users` table is left untouched. -/
theorem bootstrap_admin (sha : Str → Str) (now : Int) (db : DB) :
    (db.users = [] → (get_db sha now db).users =
      [{ id := db.next_user_id, username := ("admin").data,
         password_hash := hash_password sha ("admin123").data,
         created_at := now }]) ∧
    (db.users ≠ [] → (get_db sha now db).users = db.users) := by
  unfold get_db
  constructor
  · intro hu
    by_cases hc : db.companies.length = 0
    · simp [hc, hu]
    · simp [hc, hu]
  · intro hu
    have hlen : db.users.length ≠ 0 := by simpa using hu
    by_cases hc : db.companies.length = 0
    · simp [hc, hlen]
    · simp [hc, hlen]

/-- Witness for C8: the empty store gets exactly the default admin, a
store with an existing credential is unchanged. -/
theorem bootstrap_admin_check :
    (get_db (fun s => s) 0
      ⟨[], [], [], [], [], [], 1, 1, 1⟩).users =
      [{ id := 1, username := ("admin").data,
         password_hash := hash_password (fun s => s) ("admin123").data,
         created_at := 0 }] ∧
    (get_db (fun s => s) 0
      ⟨[defaultCompany], [⟨5, ['u'], ['h'], 0⟩], [], [], [], [], 6, 1, 1⟩).users =
      [⟨5, ['u'], ['h'], 0⟩] := by
  constructor
  · exact (bootstrap_admin (fun s => s) 0 ⟨[], [], [], [], [], [], 1, 1, 1⟩).1 rfl
  · exact (bootstrap_admin (fun s => s) 0
      ⟨[defaultCompany], [⟨5, ['u'], ['h'], 0⟩], [], [], [], [], 6, 1, 1⟩).2
      (by decide)

/-- C6 counterexample: on a fresh store, an unauthenticated request to a
protected endpoint is answered with 401, yet the persistence collaborator
has already been touched and mutated before the rejection — `get_db`
inserts and commits the default company and admin credential rows — so the
final state differs from the initial one, contradicting the claim that no
side effects occur and that persistence is not touched before the
authentication failure. -/
theorem protected_anonymous_side_effect :
    require_user (fun kk _ => kk) ['k'] 0 none
      (get_db (fun s => s) 0 ⟨[], [], [], [], [], [], 1, 1, 1⟩) = none ∧
    (run_protected (fun s => s) (fun kk _ => kk) ['k'] 0 none
      (fun d _ => (d, (0 : Nat))) ⟨[], [], [], [], [], [], 1, 1, 1⟩).2 =
      EndpointResult.httpError 401 ∧
    (run_protected (fun s => s) (fun kk _ => kk) ['k'] 0 none
      (fun d _ => (d, (0 : Nat))) ⟨[], [], [], [], [], [], 1, 1, 1⟩).1 ≠
      ⟨[], [], [], [], [], [], 1, 1, 1⟩ := by
  refine ⟨rfl, rfl, ?_⟩
  decide

/-- C6 amended: a protected operation invoked by an `Anonymous` caller
fails with the 401 authentication-required error and its handler (the
endpoint's business logic) never runs, for any handler; the resulting
store state is exactly the state `get_db` produced — i.e. the only side
effects on behalf of the unauthenticated caller are the `get_db`
bootstrap's company/credential inserts, which happen for every request
regardless of authentication. -/
theorem protected_anonymous_gating {α : Type} (sha : Str → Str)
    (mac : Str → Str → Str) (key : Str) (now : Int) (cookie : Option Str)
    (handler : DB → User → DB × α) (db : DB)
    (h : require_user mac key now cookie (get_db sha now db) = none) :
    run_protected sha mac key now cookie handler db =
      (get_db sha now db, EndpointResult.httpError 401) := by
  unfold run_protected
  simp only [h]

/-- Witness for C6's amended statement on a concrete anonymous request. -/
theorem protected_anonymous_gating_check :
    run_protected (fun s => s) (fun kk _ => kk) ['k'] 0 none
      (fun d _ => (d, (1 : Nat))) ⟨[], [], [], [], [], [], 1, 1, 1⟩ =
      (get_db (fun s => s) 0 ⟨[], [], [], [], [], [], 1, 1, 1⟩,
        EndpointResult.httpError 401) :=
  protected_anonymous_gating (fun s => s) (fun kk _ => kk) ['k'] 0 none
    (fun d _ => (d, (1 : Nat))) ⟨[], [], [], [], [], [], 1, 1, 1⟩ rfl

theorem add_invoice_lines_spec (products : List Product) (inv_id : Int) :
    ∀ (ls : List InvoiceLineCreate) (db : DB),
      ∀ l ∈ (add_invoice_lines products inv_id ls db).invoice_lines,
        l ∈ db.invoice_lines ∨
        ∃ p ∈ products, p.id = l.product_id ∧ l.unit_price = p.price := by
  intro ls
  induction ls with
  | nil => intro db l hl; exact Or.inl hl
  | cons line rest ih =>
    intro db l hl
    unfold add_invoice_lines at hl
    cases hf : products.find? (fun p => p.id == line.product_id) with
    | none =>
      rw [hf] at hl
      exact ih db l hl
    | some product =>
      rw [hf] at hl
      rcases ih _ l hl with hmem | hex
      · have hmem2 : l ∈ db.invoice_lines ++
            [{ id := db.next_line_id, invoice_id := inv_id,
               product_id := product.id, quantity := line.quantity,
               unit_price := product.price, discount := some line.discount,
               vat_rate := match line.vat_rate with
                 | some v => some v
                 | none => product.vat_rate }] := hmem
        rcases List.mem_append.mp hmem2 with h1 | h2
        · exact Or.inl h1
        · have h3 := List.mem_singleton.mp h2
          subst h3
          exact Or.inr ⟨product, List.mem_of_find?_eq_some hf, rfl, rfl⟩
      · exact Or.inr hex

theorem create_invoice_shape (now : Int) (db : DB) (data : InvoiceCreate) :
    create_invoice now db data = none ∨
    ∃ due : Int, create_invoice now db data =
      some (add_invoice_lines db.products db.next_invoice_id data.lines
        { db with
          invoices := db.invoices ++
            [⟨db.next_invoice_id, now, some due, data.customer_id⟩]
          next_invoice_id := db.next_invoice_id + 1 },
        ⟨db.next_invoice_id, now, some due, data.customer_id⟩) := by
  unfold create_invoice
  cases data.due_date with
  | some d => exact Or.inr ⟨d, rfl⟩
  | none =>
    cases db.companies with
    | nil => exact Or.inl rfl
    | cons comp rest =>
      exact Or.inr ⟨now + pyOrInt comp.payment_term 30 * 86400, rfl⟩

theorem create_invoice_lines_priced (now : Int) (db : DB)
    (data : InvoiceCreate) (db1 : DB) (inv : Invoice)
    (hc : create_invoice now db data = some (db1, inv)) :
    ∀ l ∈ db1.invoice_lines, l ∈ db.invoice_lines ∨
      ∃ p ∈ db.products, p.id = l.product_id ∧ l.unit_price = p.price := by
  rcases create_invoice_shape now db data with hn | ⟨due, hs⟩
  · rw [hn] at hc
    exact absurd hc (by simp)
  · rw [hs] at hc
    injection hc with hpair
    have h1 : add_invoice_lines db.products db.next_invoice_id data.lines
        { db with
          invoices := db.invoices ++
            [⟨db.next_invoice_id, now, some due, data.customer_id⟩]
          next_invoice_id := db.next_invoice_id + 1 } = db1 :=
      congrArg Prod.fst hpair
    subst h1
    intro l hl
    rcases add_invoice_lines_spec db.products db.next_invoice_id data.lines
      _ l hl with h | h
    · exact Or.inl h
    · exact Or.inr h

theorem update_product_frame (db : DB) (pid : Int) (pdata : ProductCreate)
    (db2 : DB) (hu : update_product db pid pdata = some db2) :
    db2.invoice_lines = db.invoice_lines := by
  unfold update_product at hu
  cases hf : db.products.find? (fun q => q.id == pid) with
  | none =>
    rw [hf] at hu
    exact absurd hu (by simp)
  | some p =>
    rw [hf] at hu
    injection hu with h
    subst h
    rfl

/-- C9: a stored invoice line's `unit_price` is a copy taken at
invoice-creation time — every line present after `create_invoice` is
either a pre-existing line or carries the price of the matching product as
it stood in the store at creation time — and a subsequent `update_product`
(whatever product id and new price) leaves the `invoice_lines` table, and
hence every stored `unit_price`, unchanged. -/
theorem invoice_price_snapshot (now : Int) (db : DB) (data : InvoiceCreate)
    (db1 : DB) (inv : Invoice) (pid : Int) (pdata : ProductCreate) (db2 : DB)
    (hc : create_invoice now db data = some (db1, inv))
    (hu : update_product db1 pid pdata = some db2) :
    (∀ l ∈ db1.invoice_lines, l ∈ db.invoice_lines ∨
      ∃ p ∈ db.products, p.id = l.product_id ∧ l.unit_price = p.price) ∧
    db2.invoice_lines = db1.invoice_lines :=
  ⟨create_invoice_lines_priced now db data db1 inv hc,
    update_product_frame db1 pid pdata db2 hu⟩

/-- Witness for C9: one product priced 100, one invoice copying that
price, then a price update to 150; the stored line still shows 100. -/
theorem invoice_price_snapshot_check :
    (∀ l ∈ (⟨[], [], [], [⟨1, ['w'], 100, some 20⟩], [⟨1, 0, some 10, 5⟩],
        [⟨1, 1, 1, 2, 100, some 0, some 20⟩], 1, 2, 2⟩ : DB).invoice_lines,
      l ∈ (⟨[], [], [], [⟨1, ['w'], 100, some 20⟩], [], [], 1, 1, 1⟩ : DB).invoice_lines ∨
      ∃ p ∈ (⟨[], [], [], [⟨1, ['w'], 100, some 20⟩], [], [], 1, 1, 1⟩ : DB).products,
        p.id = l.product_id ∧ l.unit_price = p.price) ∧
    (⟨[], [], [], [⟨1, ['w'], 150, some 20⟩], [⟨1, 0, some 10, 5⟩],
        [⟨1, 1, 1, 2, 100, some 0, some 20⟩], 1, 2, 2⟩ : DB).invoice_lines =
      (⟨[], [], [], [⟨1, ['w'], 100, some 20⟩], [⟨1, 0, some 10, 5⟩],
        [⟨1, 1, 1, 2, 100, some 0, some 20⟩], 1, 2, 2⟩ : DB).invoice_lines :=
  invoice_price_snapshot 0
    ⟨[], [], [], [⟨1, ['w'], 100, some 20⟩], [], [], 1, 1, 1⟩
    ⟨5, some 10, [⟨1, 2, 0, some 20⟩]⟩
    ⟨[], [], [], [⟨1, ['w'], 100, some 20⟩], [⟨1, 0, some 10, 5⟩],
      [⟨1, 1, 1, 2, 100, some 0, some 20⟩], 1, 2, 2⟩
    ⟨1, 0, some 10, 5⟩ 1 ⟨['w'], 150, 20⟩
    ⟨[], [], [], [⟨1, ['w'], 150, some 20⟩], [⟨1, 0, some 10, 5⟩],
      [⟨1, 1, 1, 2, 100, some 0, some 20⟩], 1, 2, 2⟩
    (by decide) (by decide)
